import Mathlib

/-!
Verification of the pyoauth OAuth 1.0 client library.

This file gives a shallow embedding of the two source files
`pyoauth/utils.py` and `pyoauth/oauth1/client/__init__.py` and proves
properties of the embedded definitions.  Python dictionaries are modelled
as association lists with unique keys (`assocLookup`, `updateAssoc`,
`dictUpdate`), Python byte/text strings as Lean `String`s, and functions
that raise exceptions as functions into `Except`.
-/

/-! ## Association lists modelling Python dictionaries -/

/-- Lookup in an association list (Python `d[k]` / `d.get(k)`). -/
def assocLookup {α : Type} (d : List (String × α)) (k : String) : Option α :=
  match d with
  | [] => none
  | (k1, v) :: rest => if k = k1 then some v else assocLookup rest k

/-- Python `d[k] = v`: replace the value at an existing key, else append. -/
def updateAssoc {α : Type} (d : List (String × α)) (k : String) (v : α) :
    List (String × α) :=
  match d with
  | [] => [(k, v)]
  | (k1, v1) :: rest =>
    if k1 = k then (k, v) :: rest else (k1, v1) :: updateAssoc rest k v

/-- Python `d.update(q)`: assign every pair of `q` into `d` in order. -/
def dictUpdate {α : Type} (d : List (String × α)) (q : List (String × α)) :
    List (String × α) :=
  q.foldl (fun acc kv => updateAssoc acc kv.1 kv.2) d

/-! ## ASCII case mapping (Python 2 `str.upper` / `str.lower`) -/

/-- ASCII upper-casing of one character, as Python 2 `str.upper` does. -/
def pyUpperChar (c : Char) : Char :=
  if 97 ≤ c.toNat ∧ c.toNat ≤ 122 then Char.ofNat (c.toNat - 32) else c

/-- ASCII lower-casing of one character, as Python 2 `str.lower` does. -/
def pyLowerChar (c : Char) : Char :=
  if 65 ≤ c.toNat ∧ c.toNat ≤ 90 then Char.ofNat (c.toNat + 32) else c

/-- Python 2 `str.upper`. -/
def strUpper (s : String) : String :=
  String.mk (s.data.map pyUpperChar)

/-- Python 2 `str.lower`. -/
def strLower (s : String) : String :=
  String.mk (s.data.map pyLowerChar)

/-- Python `str.startswith`. -/
def strStartsWith (s pre : String) : Bool :=
  pre.data.isPrefixOf s.data

/-! ## Percent encoding (`oauth_escape` in `pyoauth/utils.py`) -/

/-- The bytes `urllib.quote(_, safe="~")` leaves unescaped:
`[A-Za-z0-9]`, `-`, `.`, `_` and `~`. -/
def isUnreservedByte (b : Nat) : Bool :=
  (65 ≤ b && b ≤ 90) || (97 ≤ b && b ≤ 122) || (48 ≤ b && b ≤ 57) ||
    b == 45 || b == 46 || b == 95 || b == 126

/-- Uppercase hexadecimal digit for `n < 16`. -/
def upperHexChar (n : Nat) : Char :=
  if n < 10 then Char.ofNat (48 + n) else Char.ofNat (55 + n)

/-- Percent-escape a single byte as `urllib.quote` does: unreserved bytes
stay literal, every other byte becomes `%XY` with uppercase hex digits. -/
def escapeByte (b : Nat) : List Char :=
  if isUnreservedByte b then [Char.ofNat b]
  else ['%', upperHexChar (b / 16), upperHexChar (b % 16)]

/-- UTF-8 encoding of one character (RFC 3629). -/
def utf8Bytes (c : Char) : List Nat :=
  let n := c.toNat
  if n < 128 then [n]
  else if n < 2048 then [192 + n / 64, 128 + n % 64]
  else if n < 65536 then [224 + n / 4096, 128 + n / 64 % 64, 128 + n % 64]
  else [240 + n / 262144, 128 + n / 4096 % 64, 128 + n / 64 % 64, 128 + n % 64]

/-- `oauth_escape` (`pyoauth/utils.py`): UTF-8-encode the value, then
percent-escape every byte outside the unreserved set, uppercase hex. -/
def oauth_escape (val : String) : String :=
  String.mk ((val.data.flatMap utf8Bytes).flatMap escapeByte)

/-- Uppercase hexadecimal digit characters `0-9A-F`. -/
def isUpperHexDigit (c : Char) : Bool :=
  (48 ≤ c.toNat && c.toNat ≤ 57) || (65 ≤ c.toNat && c.toNat ≤ 70)

/-- A character list is a well-formed OAuth-escaped string: each character
is either an unreserved byte standing alone, or part of a `%XY` escape with
two uppercase hexadecimal digits. -/
def wellEscaped : List Char → Bool
  | [] => true
  | c :: rest =>
    if c = '%' then
      match rest with
      | h1 :: h2 :: rest2 =>
        isUpperHexDigit h1 && isUpperHexDigit h2 && wellEscaped rest2
      | _ => false
    else isUnreservedByte c.toNat && wellEscaped rest

/-! ## Form-urlencoded query parsing (`oauth_parse_qs`, stdlib `parse_qs`) -/

/-- Hexadecimal digit characters of either case, as accepted by
`urllib.unquote`. -/
def isHexDigit (c : Char) : Bool :=
  (48 ≤ c.toNat && c.toNat ≤ 57) || (65 ≤ c.toNat && c.toNat ≤ 70) ||
    (97 ≤ c.toNat && c.toNat ≤ 102)

/-- Numeric value of a hexadecimal digit character. -/
def hexVal (c : Char) : Nat :=
  if c.toNat ≤ 57 then c.toNat - 48
  else if c.toNat ≤ 70 then c.toNat - 55
  else c.toNat - 87

/-- Split a character list at every occurrence of the separator, keeping
empty segments (Python `str.split(sep)`). -/
def splitChars (sep : Char) : List Char → List (List Char)
  | [] => [[]]
  | c :: rest =>
    let r := splitChars sep rest
    if c = sep then [] :: r
    else
      match r with
      | a :: t => (c :: a) :: t
      | [] => [[c]]

/-- `urllib.unquote`, exactly as Python 2 implements it: split on `%`;
each later segment starting with two hex digits is decoded, any other
segment gets its `%` back literally. -/
def unquoteChars (cs : List Char) : List Char :=
  match splitChars '%' cs with
  | [] => []
  | first :: rest =>
    first ++ rest.flatMap (fun item =>
      match item with
      | h1 :: h2 :: tail =>
        if isHexDigit h1 && isHexDigit h2 then
          Char.ofNat (16 * hexVal h1 + hexVal h2) :: tail
        else '%' :: item
      | _ => '%' :: item)

/-- `str.replace("+", " ")` as used by `parse_qsl` before unquoting. -/
def plusToSpace (cs : List Char) : List Char :=
  cs.map (fun c => if c = '+' then ' ' else c)

/-- Split at the first occurrence of a character, if any
(Python `str.split(sep, 1)`). -/
def splitFirst (sep : Char) : List Char → Option (List Char × List Char)
  | [] => none
  | c :: rest =>
    if c = sep then some ([], rest)
    else
      match splitFirst sep rest with
      | some (a, b) => some (c :: a, b)
      | none => none

/-- Python 2 `urlparse.parse_qsl(qs, keep_blank_values)`: split on `&` and
`;`, skip empty fields, decode `+` as space and percent-escapes. -/
def parse_qsl (qs : String) (keepBlank : Bool) : List (String × String) :=
  let pairs := (splitChars '&' qs.data).flatMap (fun s1 => splitChars ';' s1)
  pairs.filterMap (fun nv =>
    if nv.isEmpty then none
    else
      match splitFirst '=' nv with
      | none =>
        if keepBlank then some (String.mk (unquoteChars (plusToSpace nv)), "")
        else none
      | some (n, v) =>
        if !v.isEmpty || keepBlank then
          some (String.mk (unquoteChars (plusToSpace n)),
                String.mk (unquoteChars (plusToSpace v)))
        else none)

/-- Append one parsed pair into the multi-valued query dictionary
(`parse_qs` appends to the list held at an existing name). -/
def addQsPair (d : List (String × List String)) (k v : String) :
    List (String × List String) :=
  match d with
  | [] => [(k, [v])]
  | (k1, vs) :: rest =>
    if k1 = k then (k1, vs ++ [v]) :: rest else (k1, vs) :: addQsPair rest k v

/-- Python 2 `parse_qs`: dictionary from name to the ordered list of its
values.  `oauth_parse_qs` (`pyoauth/utils.py`) calls this with
`keep_blank_values=True`. -/
def parse_qs (qs : String) (keepBlank : Bool) : List (String × List String) :=
  (parse_qsl qs keepBlank).foldl (fun d kv => addQsPair d kv.1 kv.2) []

/-! ## URL normalization (`oauth_get_normalized_url_and_query_params`) -/

/-- The parts of `urlparse.urlparse(url)` that
`oauth_get_normalized_url_and_query_params` uses: scheme, netloc, path and
query (the fragment is dropped). -/
def urlparse4 (url : String) : String × String × String × String :=
  let cs := url.data
  let beforeHash :=
    match splitFirst '#' cs with
    | some (a, _) => a
    | none => cs
  let bq :=
    match splitFirst '?' beforeHash with
    | some (a, b) => (a, b)
    | none => (beforeHash, [])
  match splitFirst ':' bq.1 with
  | some (sch, rest) =>
    match rest with
    | '/' :: '/' :: rest2 =>
      (String.mk sch, String.mk (rest2.takeWhile (fun c => c ≠ '/')),
       String.mk (rest2.dropWhile (fun c => c ≠ '/')), String.mk bq.2)
    | _ => (String.mk sch, "", String.mk rest, String.mk bq.2)
  | none => ("", "", String.mk bq.1, String.mk bq.2)

/-- `oauth_get_normalized_url_and_query_params` (`pyoauth/utils.py`):
lower-case scheme and host, keep only scheme+host+path, and parse the query
string form-urlencoded keeping blank values. -/
def oauth_get_normalized_url_and_query_params (url : String) :
    String × List (String × List String) :=
  let p := urlparse4 url
  (strLower p.1 ++ "://" ++ strLower p.2.1 ++ p.2.2.1, parse_qs p.2.2.2 true)

/-! ## Query-string normalization (`oauth_get_normalized_query_string`) -/

/-- An element of a (possibly) sequence-valued query parameter: either a
text value or a non-text value carried by its Python `str()` form. -/
inductive PyItem where
  | text (s : String)
  | obj (s : String)
deriving DecidableEq

/-- The string a sequence element contributes (`i` if it is text, else
`str(i)`). -/
def pyItemStr : PyItem → String
  | .text s => s
  | .obj s => s

/-- A query-parameter value as `oauth_get_normalized_query_string` receives
it: a text value, a sequence of values, or a non-text non-iterable value
carried by its `str()` form. -/
inductive ParamValue where
  | text (s : String)
  | seq (items : List PyItem)
  | obj (s : String)
deriving DecidableEq

/-- The loop body of `oauth_get_normalized_query_string`: escape the name,
drop `oauth_signature` and `realm`, and flatten sequence values to one
encoded pair per element. -/
def encodedPairsOf (k : String) (v : ParamValue) : List (String × String) :=
  let ek := oauth_escape k
  if ek = "oauth_signature" ∨ ek = "realm" then []
  else
    match v with
    | .text s => [(ek, oauth_escape s)]
    | .obj s => [(ek, oauth_escape s)]
    | .seq items => items.map (fun i => (ek, oauth_escape (pyItemStr i)))

/-- All encoded pairs collected from a parameter mapping. -/
def encodedPairsList (query_params : List (String × ParamValue)) :
    List (String × String) :=
  query_params.flatMap (fun kv => encodedPairsOf kv.1 kv.2)

/-- The order in which Python's `sorted` arranges the `(name, value)`
tuples: lexicographic on the name's character list (byte ordering for the
ASCII output of `oauth_escape`), ties broken by the value. -/
def pairLe (p q : String × String) : Prop :=
  p.1.data < q.1.data ∨ (p.1.data = q.1.data ∧ ¬ q.2.data < p.2.data)

instance : DecidableRel pairLe := fun p q =>
  inferInstanceAs
    (Decidable (p.1.data < q.1.data ∨
      (p.1.data = q.1.data ∧ ¬ q.2.data < p.2.data)))

instance : IsTotal (String × String) pairLe where
  total p q := by
    rcases lt_trichotomy p.1.data q.1.data with h | h | h
    · exact Or.inl (Or.inl h)
    · by_cases hv : q.2.data < p.2.data
      · exact Or.inr (Or.inr ⟨h.symm, lt_asymm hv⟩)
      · exact Or.inl (Or.inr ⟨h, hv⟩)
    · exact Or.inr (Or.inl h)

instance : IsTrans (String × String) pairLe where
  trans p q r hpq hqr := by
    rcases hpq with h1 | ⟨e1, n1⟩
    · rcases hqr with h2 | ⟨e2, _⟩
      · exact Or.inl (lt_trans h1 h2)
      · exact Or.inl (e2 ▸ h1)
    · rcases hqr with h2 | ⟨e2, n2⟩
      · exact Or.inl (lt_of_le_of_lt (le_of_eq e1) h2)
      · exact Or.inr ⟨e1.trans e2,
          not_lt.mpr (le_trans (not_lt.mp n1) (not_lt.mp n2))⟩

instance : IsAntisymm (String × String) pairLe where
  antisymm p q hpq hqp := by
    rcases hpq with h1 | ⟨e1, n1⟩
    · rcases hqp with h2 | ⟨e2, _⟩
      · exact absurd h2 (lt_asymm h1)
      · rw [e2] at h1
        exact absurd h1 (lt_irrefl _)
    · rcases hqp with h2 | ⟨e2, n2⟩
      · rw [e1] at h2
        exact absurd h2 (lt_irrefl _)
      · have hv : p.2.data = q.2.data :=
          le_antisymm (not_lt.mp n1) (not_lt.mp n2)
        obtain ⟨p1, p2⟩ := p
        obtain ⟨q1, q2⟩ := q
        obtain ⟨a⟩ := p1
        obtain ⟨b⟩ := q1
        obtain ⟨c⟩ := p2
        obtain ⟨d⟩ := q2
        simp only at e1 hv
        rw [e1, hv]

/-- `sorted(encoded_pairs)` of `oauth_get_normalized_query_string`. -/
def sortPairs (l : List (String × String)) : List (String × String) :=
  List.insertionSort pairLe l

/-- `oauth_get_normalized_query_string` (`pyoauth/utils.py`). -/
def oauth_get_normalized_query_string
    (query_params : List (String × ParamValue)) : String :=
  if query_params.isEmpty then ""
  else
    String.intercalate "&"
      ((sortPairs (encodedPairsList query_params)).map
        (fun kv => kv.1 ++ "=" ++ kv.2))

/-! ## Signature base string (`oauth_get_signature_base_string`) -/

/-- The error raised by `oauth_get_signature_base_string`. -/
inductive UtilsError where
  | invalidMethod
deriving DecidableEq

/-- The `allowed_methods` tuple of `oauth_get_signature_base_string`. -/
def allowed_methods : List String :=
  ["POST", "PUT", "GET", "DELETE", "OPTIONS", "TRACE", "HEAD", "CONNECT",
   "PATCH"]

/-- View a `parse_qs` dictionary as a parameter mapping whose values are
lists of text values. -/
def qsDictToParams (d : List (String × List String)) :
    List (String × ParamValue) :=
  d.map (fun kv => (kv.1, ParamValue.seq (kv.2.map PyItem.text)))

/-- `oauth_get_signature_base_string` (`pyoauth/utils.py`): validate the
upper-cased method, normalize the URL, merge the caller parameters into the
URL query parameters with `dict.update`, normalize, and join the three
escaped components with `&`. -/
def oauth_get_signature_base_string (method url : String)
    (query_params : List (String × ParamValue)) : Except UtilsError String :=
  if allowed_methods.contains (strUpper method) then
    let nu := oauth_get_normalized_url_and_query_params url
    let merged := dictUpdate (qsDictToParams nu.2) query_params
    Except.ok (String.intercalate "&"
      ([strUpper method, nu.1, oauth_get_normalized_query_string merged].map
        oauth_escape))
  else Except.error UtilsError.invalidMethod

/-! ## PLAINTEXT signature (`oauth_get_plaintext_signature`) -/

/-- `_oauth_get_plaintext_signature` (`pyoauth/utils.py`):
`escape(consumer_secret) & "&" & (escape(token_secret) if token_secret
else "")`. -/
def plaintext_signature_of_secrets (consumer_secret : String)
    (token_secret : Option String) : String :=
  let second :=
    match token_secret with
    | some s => if s = "" then "" else oauth_escape s
    | none => ""
  oauth_escape consumer_secret ++ "&" ++ second

/-- `oauth_get_plaintext_signature` (`pyoauth/utils.py`): delegates to the
secrets-only helper, ignoring method, URL and query parameters. -/
def oauth_get_plaintext_signature (consumer_secret method url : String)
    (query_params : List (String × ParamValue))
    (token_secret : Option String) : String :=
  let _ := method
  let _ := url
  let _ := query_params
  plaintext_signature_of_secrets consumer_secret token_secret

/-! ## OAuth 1.0 client (`pyoauth/oauth1/client/__init__.py`) -/

/-- The exceptions raised by the client code.  `keyError` models an
unhandled Python `KeyError` escaping from a dictionary lookup; the other
constructors model the declared protocol errors. -/
inductive ClientError where
  | invalidHttpResponse
  | httpError
  | invalidContentType
  | callbackNotConfirmed
  | invalidSignatureMethod
  | illegalParameter
  | invalidAuthorizationHeader
  | invalidHttpRequest
  | missingContentLength
  | keyError (k : String)
deriving DecidableEq

/-- Modelled from the spec: the `ResponseAdapter` of `pyoauth.http` (that
module is not under `src/`), the read-only view
`{status, reason, headers, body, content_type, is_error}` of what the
transport returned. -/
structure Response where
  status : Nat
  reason : String
  body : String
  headers : List (String × String)
  error : Bool
  content_type : String
deriving DecidableEq

/-- Modelled from the spec: `ResponseAdapter.is_body_form_urlencoded`,
true when the response content type is form-urlencoded. -/
def is_body_form_urlencoded (r : Response) : Bool :=
  r.content_type == "application/x-www-form-urlencoded"

/-- `Credentials` (`pyoauth.oauth1`): `{identifier, shared_secret}`. -/
structure Credentials where
  identifier : String
  shared_secret : String
deriving DecidableEq

/-- `_parse_credentials_response` (`pyoauth/oauth1/client/__init__.py`):
validate status, reason, body and headers, reject transport errors, check
the content type (fatal only in strict mode), parse the body as a query
string and read `oauth_token` / `oauth_token_secret` — a missing parameter
surfaces as an unhandled `KeyError`. -/
def _parse_credentials_response (r : Response) (strict : Bool) :
    Except ClientError (Credentials × List (String × List String)) :=
  if r.status = 0 then Except.error ClientError.invalidHttpResponse
  else if r.reason = "" then Except.error ClientError.invalidHttpResponse
  else if r.body = "" then Except.error ClientError.invalidHttpResponse
  else if r.headers.isEmpty then Except.error ClientError.invalidHttpResponse
  else if r.error then Except.error ClientError.httpError
  else if !is_body_form_urlencoded r && strict then
    Except.error ClientError.invalidContentType
  else
    let params := parse_qs r.body true
    match assocLookup params "oauth_token" with
    | none => Except.error (ClientError.keyError "oauth_token")
    | some tok =>
      match assocLookup params "oauth_token_secret" with
      | none => Except.error (ClientError.keyError "oauth_token_secret")
      | some sec =>
        Except.ok (⟨tok.headD "", sec.headD ""⟩, params)

/-- The value `params.get("oauth_callback_confirmed", [""])[0].lower()`
checked by `parse_temporary_credentials_response`. -/
def callback_confirmed_value (params : List (String × List String)) : String :=
  strLower
    (match assocLookup params "oauth_callback_confirmed" with
     | some l => l.headD ""
     | none => "")

/-- `parse_temporary_credentials_response`
(`pyoauth/oauth1/client/__init__.py`): additionally requires
`oauth_callback_confirmed` to lower-case to `"true"`; in strict mode a bad
value is fatal, otherwise it is only logged. -/
def parse_temporary_credentials_response (r : Response) (strict : Bool) :
    Except ClientError (Credentials × List (String × List String)) :=
  match _parse_credentials_response r strict with
  | Except.error e => Except.error e
  | Except.ok cp =>
    if callback_confirmed_value cp.2 ≠ "true" then
      if strict then Except.error ClientError.callbackNotConfirmed
      else Except.ok cp
    else Except.ok cp

/-- The keys of `SIGNATURE_METHOD_MAP`
(`pyoauth/oauth1/client/__init__.py`). -/
def signature_method_names : List String :=
  ["HMAC-SHA1", "RSA-SHA1", "PLAINTEXT"]

/-- Modelled from the spec: `request_query_remove_non_oauth` of
`pyoauth.url` (not under `src/`) keeps only parameters whose names carry
the `oauth_` prefix, as a query dictionary with single-valued lists. -/
def request_query_remove_non_oauth (params : List (String × String)) :
    List (String × List String) :=
  (params.filter (fun kv => strStartsWith kv.1 "oauth_")).map
    (fun kv => (kv.1, [kv.2]))

/-- The cleanup loop of `_generate_oauth_params`: assign each extra
parameter, rejecting any attempt to pass `oauth_signature`. -/
def applyExtraOauthParams (acc : List (String × String)) :
    List (String × List String) → Except ClientError (List (String × String))
  | [] => Except.ok acc
  | (k, v) :: rest =>
    if k = "oauth_signature" then Except.error ClientError.illegalParameter
    else applyExtraOauthParams (updateAssoc acc k (v.headD "")) rest

/-- `_generate_oauth_params` (`pyoauth/oauth1/client/__init__.py`):
validate the signature method, build the reserved-parameter dictionary and
fold in the cleaned extra `oauth_` parameters. -/
def _generate_oauth_params (oauth_consumer_key oauth_signature_method
    oauth_version oauth_nonce oauth_timestamp : String)
    (oauth_token : Option String)
    (extra_oauth_params : List (String × String)) :
    Except ClientError (List (String × String)) :=
  if signature_method_names.contains oauth_signature_method then
    let base := [("oauth_consumer_key", oauth_consumer_key),
                 ("oauth_signature_method", oauth_signature_method),
                 ("oauth_timestamp", oauth_timestamp),
                 ("oauth_nonce", oauth_nonce)]
    let withTok :=
      match oauth_token with
      | some t => if t = "" then base else base ++ [("oauth_token", t)]
      | none => base
    let withVer :=
      if oauth_version = "" then withTok
      else withTok ++ [("oauth_version", oauth_version)]
    applyExtraOauthParams withVer
      (request_query_remove_non_oauth extra_oauth_params)
  else Except.error ClientError.invalidSignatureMethod

/-! ## Request assembly (`_build_request`) -/

/-- `RequestAdapter` (`pyoauth.http`): the assembled request; its
`headers` field is the same mapping object the caller passed in, after the
builder's in-place insertions. -/
structure RequestAdapter where
  method : String
  url : String
  body : String
  headers : List (String × String)
deriving DecidableEq

/-- Modelled from the spec: the `Authorization` header value of
`generate_authorization_header` (`pyoauth.oauth1.protocol`, not under
`src/`): comma-separated `name="escaped-value"` pairs after an optional
realm. -/
def generate_authorization_header (oauth_params : List (String × String))
    (realm : Option String) : String :=
  let items :=
    (match realm with
     | some r => ["realm=\"" ++ r ++ "\""]
     | none => []) ++
    oauth_params.map (fun kv => kv.1 ++ "=\"" ++ oauth_escape kv.2 ++ "\"")
  "OAuth " ++ String.intercalate ", " items

/-- Modelled from the spec: form-urlencode a parameter mapping
(`pyoauth.url` helpers, not under `src/`). -/
def query_unparse (params : List (String × String)) : String :=
  String.intercalate "&"
    (params.map (fun kv => oauth_escape kv.1 ++ "=" ++ oauth_escape kv.2))

/-- Modelled from the spec: append query parameters to a URL
(`url_append_query` of `pyoauth.url`, not under `src/`). -/
def url_append_query (url : String) (params : List (String × String)) :
    String :=
  if params.isEmpty then url
  else url ++ (if url.data.contains '?' then "&" else "?") ++
    query_unparse params

/-- Modelled from the spec: merge query parameters into a URL
(`url_add_query` of `pyoauth.url`, not under `src/`). -/
def url_add_query (url : String) (params : List (String × String)) : String :=
  url_append_query url params

/-- Modelled from the spec: form-encode two parameter mappings into one
entity body (`query_append` of `pyoauth.url`, not under `src/`). -/
def query_append (a b : List (String × String)) : String :=
  query_unparse (a ++ b)

/-- `_build_request` (`pyoauth/oauth1/client/__init__.py`).  The header
mapping is threaded explicitly: the `headers` field of the returned
`RequestAdapter` is the caller's mapping after the in-place mutations the
builder performs.  Clearing `oauth_params` to `None` is modelled by the
empty mapping. -/
def _build_request (method url : String) (params : List (String × String))
    (body : String) (headers : List (String × String))
    (oauth_params : List (String × String)) (realm : Option String)
    (use_authorization_header : Bool) : Except ClientError RequestAdapter :=
  if assocLookup headers "Authorization" ≠ none ∨
     assocLookup headers "authorization" ≠ none then
    Except.error ClientError.invalidAuthorizationHeader
  else
    let headers1 :=
      if use_authorization_header then
        updateAssoc headers "Authorization"
          (generate_authorization_header oauth_params realm)
      else headers
    let oauth1 := if use_authorization_header then [] else oauth_params
    if body ≠ "" ∨ method = "GET" then
      let url1 := url_append_query (url_add_query url params) oauth1
      if body ≠ "" ∧ method = "GET" then
        Except.error ClientError.invalidHttpRequest
      else if body ≠ "" ∧ assocLookup headers1 "content-length" = none ∧
          assocLookup headers1 "Content-Length" = none then
        Except.error ClientError.missingContentLength
      else Except.ok ⟨method, url1, body, headers1⟩
    else
      if params ≠ [] ∨ oauth1 ≠ [] then
        let body1 := query_append params oauth1
        let headers2 :=
          updateAssoc
            (updateAssoc headers1 "content-type"
              "application/x-www-form-urlencoded")
            "content-length" (toString body1.length)
        Except.ok ⟨method, url, body1, headers2⟩
      else
        Except.ok ⟨method, url, "", updateAssoc headers1 "content-length" "0"⟩

/-! ## Helper lemmas on the dictionary model -/

theorem assocLookup_updateAssoc_self {α : Type} (d : List (String × α))
    (k : String) (v : α) : assocLookup (updateAssoc d k v) k = some v := by
  induction d with
  | nil => simp [updateAssoc, assocLookup]
  | cons kv rest ih =>
    obtain ⟨k1, v1⟩ := kv
    by_cases h : k1 = k
    · subst h
      simp [updateAssoc, assocLookup]
    · simp only [updateAssoc, if_neg h, assocLookup]
      rw [if_neg (fun hh => h (Eq.symm hh))]
      exact ih

theorem assocLookup_updateAssoc_ne {α : Type} (d : List (String × α))
    (k1 : String) (v : α) (k : String) (h : k ≠ k1) :
    assocLookup (updateAssoc d k1 v) k = assocLookup d k := by
  induction d with
  | nil => simp [updateAssoc, assocLookup, h]
  | cons kv rest ih =>
    obtain ⟨k2, v2⟩ := kv
    by_cases h2 : k2 = k1
    · subst h2
      simp [updateAssoc, assocLookup, h]
    · simp [updateAssoc, h2, assocLookup]
      by_cases h3 : k = k2 <;> simp [h3, ih]

theorem assocLookup_dictUpdate_not_mem {α : Type}
    (q : List (String × α)) (d : List (String × α)) (k : String)
    (h : k ∉ q.map Prod.fst) :
    assocLookup (dictUpdate d q) k = assocLookup d k := by
  induction q generalizing d with
  | nil => rfl
  | cons kv rest ih =>
    obtain ⟨k1, v1⟩ := kv
    simp only [List.map_cons, List.mem_cons] at h
    push_neg at h
    have step : dictUpdate d ((k1, v1) :: rest) =
        dictUpdate (updateAssoc d k1 v1) rest := rfl
    rw [step, ih _ h.2, assocLookup_updateAssoc_ne _ _ _ _ h.1]

/-! ## Claim theorems -/

/-- C1 (counterexample): with URL
`http://example.com/request?n=1` and caller parameter `n=2`, the base
string keeps only the caller's entry `n=2`; the URL's `n=1` does not
survive, contradicting the claim that both values survive as repeated
entries. -/
theorem c1_merge_counterexample :
    oauth_get_signature_base_string "POST" "http://example.com/request?n=1"
        [("n", ParamValue.text "2")] =
      Except.ok "POST&http%3A%2F%2Fexample.com%2Frequest&n%3D2" ∧
    ¬ List.IsInfix "n%3D1".data
        "POST&http%3A%2F%2Fexample.com%2Frequest&n%3D2".data := by
  constructor
  · rfl
  · decide

/-- C1 (amended): `oauth_get_signature_base_string` merges the
caller-supplied parameters into the URL's query parameters with
`dict.update`, so a caller value replaces (rather than augments) the
same-named URL value: after the merge, every key of the caller mapping is
bound to the caller's value. -/
theorem c1_merge_override (d q : List (String × ParamValue)) (k : String)
    (v : ParamValue) (hnd : (q.map Prod.fst).Nodup)
    (hq : assocLookup q k = some v) :
    assocLookup (dictUpdate d q) k = some v := by
  induction q generalizing d with
  | nil => simp [assocLookup] at hq
  | cons kv rest ih =>
    obtain ⟨k1, v1⟩ := kv
    simp only [List.map_cons, List.nodup_cons] at hnd
    have step : dictUpdate d ((k1, v1) :: rest) =
        dictUpdate (updateAssoc d k1 v1) rest := rfl
    rw [step]
    by_cases h : k = k1
    · subst h
      simp only [assocLookup, if_pos rfl] at hq
      rw [assocLookup_dictUpdate_not_mem _ _ _ hnd.1,
        assocLookup_updateAssoc_self]
      exact hq
    · simp only [assocLookup, if_neg h] at hq
      exact ih _ hnd.2 hq

/-- C1 witness: the merge of `{n: ["1"]}` with the caller mapping
`{n: "2"}` binds `n` to the caller's value `"2"`. -/
theorem c1_merge_override_witness :
    assocLookup
        (dictUpdate [("n", ParamValue.seq [PyItem.text "1"])]
          [("n", ParamValue.text "2")]) "n" =
      some (ParamValue.text "2") :=
  c1_merge_override _ _ _ _ (by decide) (by decide)

set_option maxRecDepth 8000 in
/-- C2: the RFC 5849 example: method `POST`, the example URL and the five
`oauth_` protocol parameters produce exactly the documented signature base
string. -/
theorem c2_base_string_example :
    oauth_get_signature_base_string "POST"
        "http://example.com/request?b5=%3D%253D&a3=a&c%40=&a2=r%20b&c2&a3=2+q"
        [("oauth_consumer_key", ParamValue.text "9djdj82h48djs9d2"),
         ("oauth_token", ParamValue.text "kkk9d7dh3k39sjv7"),
         ("oauth_signature_method", ParamValue.text "HMAC-SHA1"),
         ("oauth_timestamp", ParamValue.text "137131201"),
         ("oauth_nonce", ParamValue.text "7d8f3e4a")] =
      Except.ok
        "POST&http%3A%2F%2Fexample.com%2Frequest&a2%3Dr%2520b%26a3%3D2%2520q%26a3%3Da%26b5%3D%253D%25253D%26c%2540%3D%26c2%3D%26oauth_consumer_key%3D9djdj82h48djs9d2%26oauth_nonce%3D7d8f3e4a%26oauth_signature_method%3DHMAC-SHA1%26oauth_timestamp%3D137131201%26oauth_token%3Dkkk9d7dh3k39sjv7" :=
  rfl

/-- C3 (counterexample): the lowercase method name `"get"` does not fail
with `InvalidMethod` — it is upper-cased first and the base string is
produced — contradicting the claim that lowercase spellings fail. -/
theorem c3_method_counterexample :
    oauth_get_signature_base_string "get" "http://example.com/request" [] =
      Except.ok "GET&http%3A%2F%2Fexample.com%2Frequest&" := by
  rfl

/-- C3 (amended): `oauth_get_signature_base_string` upper-cases the method
first and fails with `InvalidMethod` exactly when the upper-cased method is
not one of the nine allowed HTTP verbs; in particular `"TYPO"` always
fails with `InvalidMethod`. -/
theorem c3_method_validation (method url : String)
    (qp : List (String × ParamValue)) :
    ((oauth_get_signature_base_string method url qp =
        Except.error UtilsError.invalidMethod) ↔
      allowed_methods.contains (strUpper method) = false) ∧
    oauth_get_signature_base_string "TYPO" url qp =
      Except.error UtilsError.invalidMethod := by
  constructor
  · unfold oauth_get_signature_base_string
    cases h : allowed_methods.contains (strUpper method) <;> simp [h]
  · unfold oauth_get_signature_base_string
    rw [show allowed_methods.contains (strUpper "TYPO") = false from rfl]
    simp

/-- C7: the PLAINTEXT signature is
`escape(consumer_secret) ++ "&" ++ escape(token_secret or "")`, does not
depend on the method, URL or query parameters, and takes the documented
values on the two examples. -/
theorem c7_plaintext_signature :
    (∀ (cs m u : String) (q : List (String × ParamValue))
        (ts : Option String),
      oauth_get_plaintext_signature cs m u q ts =
        oauth_escape cs ++ "&" ++ oauth_escape (ts.getD "")) ∧
    oauth_get_plaintext_signature "abcd" "POST" "http://example.com/request"
        [] none = "abcd&" ∧
    oauth_get_plaintext_signature "abcd" "POST" "http://example.com/request"
        [] (some "47fba") = "abcd&47fba" := by
  refine ⟨?_, rfl, rfl⟩
  intro cs m u q ts
  cases ts with
  | none => rfl
  | some s =>
    by_cases h : s = ""
    · subst h
      rfl
    · simp [oauth_get_plaintext_signature, plaintext_signature_of_secrets, h,
        Option.getD]

/-- C9: a response that passes every validation check of
`_parse_credentials_response` (status 200, reason, non-empty body and
headers, no transport error, form-urlencoded content type) but whose body
lacks `oauth_token` (resp. `oauth_token_secret`) makes the parameter
lookup fail with an unhandled `KeyError`, not a declared protocol error. -/
theorem c9_missing_token_keyerror :
    _parse_credentials_response
        ⟨200, "OK", "foo=bar",
         [("Content-Type", "application/x-www-form-urlencoded")], false,
         "application/x-www-form-urlencoded"⟩ true =
      Except.error (ClientError.keyError "oauth_token") ∧
    _parse_credentials_response
        ⟨200, "OK", "oauth_token=hh5s93j4hdidpola",
         [("Content-Type", "application/x-www-form-urlencoded")], false,
         "application/x-www-form-urlencoded"⟩ true =
      Except.error (ClientError.keyError "oauth_token_secret") := by
  constructor <;> rfl

/-! ## Lemmas for the query-string normalizer -/

theorem norm_eq_intercalate (p : List (String × ParamValue)) :
    oauth_get_normalized_query_string p =
      String.intercalate "&"
        ((sortPairs (encodedPairsList p)).map (fun kv => kv.1 ++ "=" ++ kv.2)) := by
  cases p with
  | nil => rfl
  | cons kv rest =>
    unfold oauth_get_normalized_query_string
    rfl

theorem flatMap_singleton_eq_map {α β : Type} (l : List α) (g : α → β) :
    (l.flatMap fun i => [g i]) = l.map g := by
  induction l with
  | nil => rfl
  | cons a rest ih => simp [List.flatMap_cons, ih]

theorem encodedPairsOf_dropped (k : String) (v : ParamValue)
    (h : k = "oauth_signature" ∨ k = "realm") : encodedPairsOf k v = [] := by
  rcases h with h | h <;> subst h <;> rfl

theorem encodedPairsList_filter (p : List (String × ParamValue)) :
    encodedPairsList
        (p.filter (fun kv =>
          !(kv.1 == "oauth_signature" || kv.1 == "realm"))) =
      encodedPairsList p := by
  induction p with
  | nil => rfl
  | cons kv rest ih =>
    by_cases h : (kv.1 == "oauth_signature" || kv.1 == "realm") = true
    · have hd : kv.1 = "oauth_signature" ∨ kv.1 = "realm" := by
        simpa using h
      have h0 : encodedPairsOf kv.1 kv.2 = [] := encodedPairsOf_dropped _ _ hd
      rw [List.filter_cons, if_neg (by simp [h])]
      rw [ih]
      simp only [encodedPairsList, List.flatMap_cons, h0, List.nil_append]
    · have hb : (kv.1 == "oauth_signature" || kv.1 == "realm") = false := by
        cases hx : (kv.1 == "oauth_signature" || kv.1 == "realm") with
        | false => rfl
        | true => exact absurd hx h
      rw [List.filter_cons, if_pos (by simp [hb])]
      simp only [encodedPairsList, List.flatMap_cons]
      exact congrArg (encodedPairsOf kv.1 kv.2 ++ ·) ih

/-- C4: the query-string normalizer is order-independent (equal outputs on
permuted parameter mappings), its output is the `&`-join of the sorted
encoded pairs (a `pairLe`-sorted permutation of the collected encoded
pairs), parameters named `oauth_signature` or `realm` are dropped,
sequence values flatten to one pair per element coerced via their string
form, and the empty mapping yields the empty string. -/
theorem c4_normalized_query_string :
    (∀ p q : List (String × ParamValue), p.Perm q →
      oauth_get_normalized_query_string p =
        oauth_get_normalized_query_string q) ∧
    (∀ p : List (String × ParamValue),
      oauth_get_normalized_query_string p =
        String.intercalate "&"
          ((sortPairs (encodedPairsList p)).map
            (fun kv => kv.1 ++ "=" ++ kv.2)) ∧
      (sortPairs (encodedPairsList p)).Sorted pairLe ∧
      (sortPairs (encodedPairsList p)).Perm (encodedPairsList p)) ∧
    (∀ p : List (String × ParamValue),
      oauth_get_normalized_query_string
          (p.filter (fun kv =>
            !(kv.1 == "oauth_signature" || kv.1 == "realm"))) =
        oauth_get_normalized_query_string p) ∧
    (∀ (k : String) (items : List PyItem),
      oauth_get_normalized_query_string [(k, ParamValue.seq items)] =
        oauth_get_normalized_query_string
          (items.map (fun i => (k, ParamValue.text (pyItemStr i))))) ∧
    oauth_get_normalized_query_string [] = "" := by
  refine ⟨?_, ?_, ?_, ?_, rfl⟩
  · intro p q hperm
    have hp : (encodedPairsList p).Perm (encodedPairsList q) :=
      hperm.flatMap_right _
    have hs : sortPairs (encodedPairsList p) =
        sortPairs (encodedPairsList q) :=
      List.eq_of_perm_of_sorted
        ((List.perm_insertionSort _ _).trans
          (hp.trans (List.perm_insertionSort pairLe _).symm))
        (List.sorted_insertionSort _ _) (List.sorted_insertionSort _ _)
    rw [norm_eq_intercalate, norm_eq_intercalate, hs]
  · intro p
    exact ⟨norm_eq_intercalate p, List.sorted_insertionSort _ _,
      List.perm_insertionSort _ _⟩
  · intro p
    rw [norm_eq_intercalate, norm_eq_intercalate, encodedPairsList_filter]
  · intro k items
    rw [norm_eq_intercalate, norm_eq_intercalate]
    have he : encodedPairsList [(k, ParamValue.seq items)] =
        encodedPairsList
          (items.map (fun i => (k, ParamValue.text (pyItemStr i)))) := by
      by_cases hd : oauth_escape k = "oauth_signature" ∨ oauth_escape k = "realm"
      · have h0 : ∀ v, encodedPairsOf k v = [] := fun v => by
          unfold encodedPairsOf
          rw [if_pos hd]
        have l2 : encodedPairsList
            (items.map (fun i => (k, ParamValue.text (pyItemStr i)))) = [] := by
          induction items with
          | nil => rfl
          | cons i rest ih =>
            simp only [List.map_cons, encodedPairsList, List.flatMap_cons,
              h0, List.nil_append] at ih ⊢
            exact ih
        have l1 : encodedPairsList [(k, ParamValue.seq items)] = [] := by
          simp [encodedPairsList, List.flatMap_cons, h0]
        rw [l1, l2]
      · simp only [encodedPairsList, List.flatMap_cons, List.flatMap_nil,
          List.append_nil, encodedPairsOf, if_neg hd]
        rw [List.flatMap_map]
        simp only [encodedPairsOf, if_neg hd]
        rw [flatMap_singleton_eq_map]
    rw [he]

/-- C4 witness: two orderings of the same two-entry mapping normalize to
the same query string. -/
theorem c4_normalized_query_string_witness :
    oauth_get_normalized_query_string
        [("b", ParamValue.text "2"), ("a", ParamValue.text "1")] =
      oauth_get_normalized_query_string
        [("a", ParamValue.text "1"), ("b", ParamValue.text "2")] :=
  c4_normalized_query_string.1 _ _ (List.Perm.swap _ _ _)

/-! ## Lemmas for the percent encoder -/

theorem char_toNat_lt (c : Char) : c.toNat < 1114112 := by
  have h := c.valid
  rcases h with h | h
  · have : c.val.toNat < 55296 := h
    simp only [Char.toNat]
    omega
  · obtain ⟨_, h2⟩ := h
    have : c.val.toNat < 1114112 := h2
    simp only [Char.toNat]
    omega

theorem mem_utf8Bytes_lt (c : Char) : ∀ b ∈ utf8Bytes c, b < 256 := by
  have hn : c.toNat < 1114112 := char_toNat_lt c
  intro b hb
  simp only [utf8Bytes] at hb
  split_ifs at hb <;> simp only [List.mem_cons, List.not_mem_nil,
    or_false] at hb <;> omega

theorem isUnreservedByte_lt {b : Nat} (h : isUnreservedByte b = true) :
    b < 128 := by
  simp only [isUnreservedByte, Bool.or_eq_true, Bool.and_eq_true,
    decide_eq_true_eq, beq_iff_eq] at h
  omega

theorem unreserved_char_facts : ∀ b : Fin 128,
    isUnreservedByte b.val = true →
      isUnreservedByte (Char.ofNat b.val).toNat = true ∧
        ¬ Char.ofNat b.val = '%' := by
  decide

theorem upperHexChar_fact : ∀ n : Fin 16,
    isUpperHexDigit (upperHexChar n.val) = true := by
  decide

theorem wellEscaped_flatMap (bs : List Nat) (hb : ∀ b ∈ bs, b < 256) :
    wellEscaped (bs.flatMap escapeByte) = true := by
  induction bs with
  | nil => rfl
  | cons b rest ih =>
    have hrest : wellEscaped (rest.flatMap escapeByte) = true :=
      ih (fun x hx => hb x (List.mem_cons_of_mem _ hx))
    have hb0 : b < 256 := hb b (List.mem_cons_self _ _)
    rw [List.flatMap_cons]
    by_cases hu : isUnreservedByte b = true
    · obtain ⟨h1, h2⟩ :=
        unreserved_char_facts ⟨b, isUnreservedByte_lt hu⟩ hu
      rw [escapeByte, if_pos hu]
      show wellEscaped (Char.ofNat b :: rest.flatMap escapeByte) = true
      unfold wellEscaped
      rw [if_neg h2]
      simp [h1, hrest]
    · rw [escapeByte, if_neg hu]
      show wellEscaped
        ('%' :: upperHexChar (b / 16) :: upperHexChar (b % 16) ::
          rest.flatMap escapeByte) = true
      unfold wellEscaped
      rw [if_pos rfl]
      have hx1 := upperHexChar_fact ⟨b / 16, by omega⟩
      have hx2 := upperHexChar_fact ⟨b % 16, by omega⟩
      simp [hx1, hx2, hrest]

/-- C8: `oauth_escape` emits only unreserved characters standing alone or
`%XY` escapes with uppercase hexadecimal digits — no character outside
`[A-Za-z0-9._~-]` appears unescaped — and the space character is encoded
as `%20`, never as `+`. -/
theorem c8_escape_wellformed :
    (∀ s : String, wellEscaped (oauth_escape s).data = true) ∧
    oauth_escape " " = "%20" := by
  refine ⟨fun s => ?_, rfl⟩
  show wellEscaped ((s.data.flatMap utf8Bytes).flatMap escapeByte) = true
  apply wellEscaped_flatMap
  intro b hbm
  rw [List.mem_flatMap] at hbm
  obtain ⟨c, _, hc⟩ := hbm
  exact mem_utf8Bytes_lt c b hc

/-! ## Claim theorems for the client -/

/-- C5 (counterexample): a strict-mode temporary-credentials response whose
body carries `oauth_callback_confirmed=True` — a value other than the exact
string `"true"` — succeeds instead of failing with `CallbackNotConfirmed`,
because the code lower-cases the value before comparing. -/
theorem c5_callback_counterexample :
    parse_temporary_credentials_response
        ⟨200, "OK",
         "oauth_token=a&oauth_token_secret=b&oauth_callback_confirmed=True",
         [("Content-Type", "application/x-www-form-urlencoded")], false,
         "application/x-www-form-urlencoded"⟩ true =
      Except.ok (⟨"a", "b"⟩,
        [("oauth_token", ["a"]), ("oauth_token_secret", ["b"]),
         ("oauth_callback_confirmed", ["True"])]) ∧
    "True" ≠ "true" := by
  constructor
  · rfl
  · decide

/-- C5 (amended): when the parsed credentials response has an
`oauth_callback_confirmed` value whose ASCII lower-casing is not `"true"`
(in particular when the parameter is missing), the temporary-credentials
parser fails with `CallbackNotConfirmed` in strict mode and returns the
parsed credentials and parameters with only a logged warning otherwise. -/
theorem c5_callback_confirmed (r : Response) (c : Credentials)
    (ps : List (String × List String)) (strict : Bool)
    (hok : _parse_credentials_response r strict = Except.ok (c, ps))
    (hne : callback_confirmed_value ps ≠ "true") :
    parse_temporary_credentials_response r strict =
      (if strict then Except.error ClientError.callbackNotConfirmed
       else Except.ok (c, ps)) := by
  unfold parse_temporary_credentials_response
  rw [hok]
  simp [hne]

/-- C5 witness: a valid strict-mode response without
`oauth_callback_confirmed` parses but then fails with
`CallbackNotConfirmed`. -/
theorem c5_callback_confirmed_witness :
    _parse_credentials_response
        ⟨200, "OK", "oauth_token=a&oauth_token_secret=b",
         [("Content-Type", "application/x-www-form-urlencoded")], false,
         "application/x-www-form-urlencoded"⟩ true =
      Except.ok (⟨"a", "b"⟩,
        [("oauth_token", ["a"]), ("oauth_token_secret", ["b"])]) ∧
    callback_confirmed_value
        [("oauth_token", ["a"]), ("oauth_token_secret", ["b"])] ≠ "true" ∧
    parse_temporary_credentials_response
        ⟨200, "OK", "oauth_token=a&oauth_token_secret=b",
         [("Content-Type", "application/x-www-form-urlencoded")], false,
         "application/x-www-form-urlencoded"⟩ true =
      Except.error ClientError.callbackNotConfirmed :=
  ⟨rfl, by decide,
    c5_callback_confirmed _ ⟨"a", "b"⟩
      [("oauth_token", ["a"]), ("oauth_token_secret", ["b"])] true rfl
      (by decide)⟩

theorem applyExtraOauthParams_signature (l : List (String × List String))
    (acc : List (String × String))
    (h : "oauth_signature" ∈ l.map Prod.fst) :
    applyExtraOauthParams acc l = Except.error ClientError.illegalParameter := by
  induction l generalizing acc with
  | nil => simp at h
  | cons kv rest ih =>
    obtain ⟨k, v⟩ := kv
    by_cases hk : k = "oauth_signature"
    · subst hk
      simp [applyExtraOauthParams]
    · simp only [List.map_cons, List.mem_cons] at h
      rcases h with h | h
      · exact absurd h.symm hk
      · simp only [applyExtraOauthParams, if_neg hk]
        exact ih _ h

theorem remove_non_oauth_keeps_signature (extras : List (String × String))
    (h : "oauth_signature" ∈ extras.map Prod.fst) :
    "oauth_signature" ∈
      (request_query_remove_non_oauth extras).map Prod.fst := by
  rw [List.mem_map] at h
  obtain ⟨kv, hkv, hfst⟩ := h
  unfold request_query_remove_non_oauth
  rw [List.map_map, List.mem_map]
  refine ⟨kv, List.mem_filter.mpr ⟨hkv, ?_⟩, hfst⟩
  show strStartsWith kv.1 "oauth_" = true
  rw [hfst]
  rfl

/-- C6: for any configured signature method among HMAC-SHA1, RSA-SHA1 and
PLAINTEXT, an extra `oauth_` parameter mapping that contains the key
`oauth_signature` makes `_generate_oauth_params` fail with
`IllegalParameter`. -/
theorem c6_oauth_signature_rejected (ck sm ver nonce ts : String)
    (tok : Option String) (extras : List (String × String))
    (hsm : sm = "HMAC-SHA1" ∨ sm = "RSA-SHA1" ∨ sm = "PLAINTEXT")
    (hsig : "oauth_signature" ∈ extras.map Prod.fst) :
    _generate_oauth_params ck sm ver nonce ts tok extras =
      Except.error ClientError.illegalParameter := by
  have hc : signature_method_names.contains sm = true := by
    rcases hsm with h | h | h <;> subst h <;> rfl
  unfold _generate_oauth_params
  rw [hc]
  simp only [if_true]
  exact applyExtraOauthParams_signature _ _
    (remove_non_oauth_keeps_signature _ hsig)

/-- C6 witness: supplying `oauth_signature` with the PLAINTEXT method
fails with `IllegalParameter`. -/
theorem c6_oauth_signature_rejected_witness :
    _generate_oauth_params "9djdj82h48djs9d2" "PLAINTEXT" "1.0" "7d8f3e4a"
        "137131201" none [("oauth_signature", "x")] =
      Except.error ClientError.illegalParameter :=
  c6_oauth_signature_rejected _ _ _ _ _ _ _ (Or.inr (Or.inr rfl)) (by decide)

/-- C10: the header mapping returned inside a successfully built request is
the caller's mapping mutated in place: an `Authorization` entry is inserted
when `use_authorization_header` is true; when the parameters are
form-encoded into the body (no body, non-GET method) a `content-length`
entry (and, with parameters present, a `content-type` entry) is inserted;
every caller-supplied entry under any other name is preserved unchanged. -/
theorem c10_build_request_headers
    (method url : String) (params : List (String × String)) (body : String)
    (headers oauth_params : List (String × String)) (realm : Option String)
    (use_auth : Bool) (req : RequestAdapter)
    (h : _build_request method url params body headers oauth_params realm
        use_auth = Except.ok req) :
    (∀ k, ¬ k ∈ (["Authorization", "content-type", "content-length"] :
        List String) →
      assocLookup req.headers k = assocLookup headers k) ∧
    (use_auth = true →
      assocLookup req.headers "Authorization" =
        some (generate_authorization_header oauth_params realm)) ∧
    (body = "" → method ≠ "GET" →
      assocLookup req.headers "content-length" ≠ none) := by
  simp only [_build_request] at h
  by_cases hdup : (assocLookup headers "Authorization" ≠ none ∨
      assocLookup headers "authorization" ≠ none)
  · rw [if_pos hdup] at h
    exact absurd h (by simp)
  · rw [if_neg hdup] at h
    by_cases hu : use_auth = true
    · simp only [if_pos hu] at h
      by_cases hbg : body ≠ "" ∨ method = "GET"
      · rw [if_pos hbg] at h
        split at h
        · exact absurd h (by simp)
        · split at h
          · exact absurd h (by simp)
          · rw [Except.ok.injEq] at h
            subst h
            refine ⟨?_, ?_, ?_⟩
            · intro k hk
              simp only [List.mem_cons, List.not_mem_nil, or_false,
                not_or] at hk
              exact assocLookup_updateAssoc_ne _ _ _ _ hk.1
            · intro _
              exact assocLookup_updateAssoc_self _ _ _
            · intro hb hm
              rcases hbg with hb1 | hm1
              · exact absurd hb hb1
              · exact absurd hm1 hm
      · rw [if_neg hbg] at h
        split at h
        · rw [Except.ok.injEq] at h
          subst h
          refine ⟨?_, ?_, ?_⟩
          · intro k hk
            simp only [List.mem_cons, List.not_mem_nil, or_false,
              not_or] at hk
            obtain ⟨hk1, hk2, hk3⟩ := hk
            show assocLookup (updateAssoc (updateAssoc _ "content-type" _)
              "content-length" _) k = assocLookup headers k
            rw [assocLookup_updateAssoc_ne _ _ _ _ hk3,
              assocLookup_updateAssoc_ne _ _ _ _ hk2]
            exact assocLookup_updateAssoc_ne _ _ _ _ hk1
          · intro _
            show assocLookup (updateAssoc (updateAssoc _ "content-type" _)
              "content-length" _) "Authorization" = _
            rw [assocLookup_updateAssoc_ne _ _ _ _ (by decide),
              assocLookup_updateAssoc_ne _ _ _ _ (by decide)]
            exact assocLookup_updateAssoc_self _ _ _
          · intro _ _
            show assocLookup (updateAssoc _ "content-length" _)
              "content-length" ≠ none
            rw [assocLookup_updateAssoc_self]
            simp
        · rw [Except.ok.injEq] at h
          subst h
          refine ⟨?_, ?_, ?_⟩
          · intro k hk
            simp only [List.mem_cons, List.not_mem_nil, or_false,
              not_or] at hk
            obtain ⟨hk1, _, hk3⟩ := hk
            show assocLookup (updateAssoc _ "content-length" _) k =
              assocLookup headers k
            rw [assocLookup_updateAssoc_ne _ _ _ _ hk3]
            exact assocLookup_updateAssoc_ne _ _ _ _ hk1
          · intro _
            show assocLookup (updateAssoc _ "content-length" _)
              "Authorization" = _
            rw [assocLookup_updateAssoc_ne _ _ _ _ (by decide)]
            exact assocLookup_updateAssoc_self _ _ _
          · intro _ _
            show assocLookup (updateAssoc _ "content-length" _)
              "content-length" ≠ none
            rw [assocLookup_updateAssoc_self]
            simp
    · simp only [if_neg hu] at h
      by_cases hbg : body ≠ "" ∨ method = "GET"
      · rw [if_pos hbg] at h
        split at h
        · exact absurd h (by simp)
        · split at h
          · exact absurd h (by simp)
          · rw [Except.ok.injEq] at h
            subst h
            refine ⟨fun k _ => rfl, fun hu1 => absurd hu1 hu, ?_⟩
            intro hb hm
            rcases hbg with hb1 | hm1
            · exact absurd hb hb1
            · exact absurd hm1 hm
      · rw [if_neg hbg] at h
        split at h
        · rw [Except.ok.injEq] at h
          subst h
          refine ⟨?_, fun hu1 => absurd hu1 hu, ?_⟩
          · intro k hk
            simp only [List.mem_cons, List.not_mem_nil, or_false,
              not_or] at hk
            obtain ⟨_, hk2, hk3⟩ := hk
            show assocLookup (updateAssoc (updateAssoc _ "content-type" _)
              "content-length" _) k = assocLookup headers k
            rw [assocLookup_updateAssoc_ne _ _ _ _ hk3]
            exact assocLookup_updateAssoc_ne _ _ _ _ hk2
          · intro _ _
            show assocLookup (updateAssoc _ "content-length" _)
              "content-length" ≠ none
            rw [assocLookup_updateAssoc_self]
            simp
        · rw [Except.ok.injEq] at h
          subst h
          refine ⟨?_, fun hu1 => absurd hu1 hu, ?_⟩
          · intro k hk
            simp only [List.mem_cons, List.not_mem_nil, or_false,
              not_or] at hk
            exact assocLookup_updateAssoc_ne _ _ _ _ hk.2.2
          · intro _ _
            show assocLookup (updateAssoc _ "content-length" _)
              "content-length" ≠ none
            rw [assocLookup_updateAssoc_self]
            simp

/-- C10 witness: building a bodiless POST with one extra header inserts
`content-type` and `content-length` and preserves the caller's header. -/
theorem c10_build_request_headers_witness :
    _build_request "POST" "http://example.com/" [] "" [("X-Foo", "bar")]
        [("oauth_nonce", "n")] none false =
      Except.ok ⟨"POST", "http://example.com/", "oauth_nonce=n",
        [("X-Foo", "bar"),
         ("content-type", "application/x-www-form-urlencoded"),
         ("content-length", "13")]⟩ ∧
    assocLookup
        [("X-Foo", "bar"),
         ("content-type", "application/x-www-form-urlencoded"),
         ("content-length", "13")] "X-Foo" =
      assocLookup [("X-Foo", "bar")] "X-Foo" :=
  ⟨rfl,
    (c10_build_request_headers "POST" "http://example.com/" [] ""
      [("X-Foo", "bar")] [("oauth_nonce", "n")] none false
      ⟨"POST", "http://example.com/", "oauth_nonce=n",
        [("X-Foo", "bar"),
         ("content-type", "application/x-www-form-urlencoded"),
         ("content-length", "13")]⟩ rfl).1 "X-Foo" (by decide)⟩
